import Mathlib

/-!
Shallow embedding of the rust-macos-open library (src/lib.rs).

The library is conversion glue between Rust string/path types and the
opaque reference types of Core Foundation, Launch Services and the File
Metadata framework. Every framework call is opaque to the library, so the
embedding is parametrized over an environment Env whose fields are the
framework oracles (CFURLCreateWithString, open_url, LSCopy... wrappers,
MDQuery execution, filesystem queries). Each Rust function is translated
to a Lean function over Env, keeping the source's branching structure.

Paths and path buffers are modelled as strings (their textual form on a
unix host); CFURL, MDQuery and MDItem are opaque handles modelled as
natural-number references.
-/

/-- An opaque Core Foundation URL reference (CFURL). A null CFURLRef is
modelled as Option.none at the use sites, as in the source's null checks. -/
structure CFURL where
  ref : Nat
deriving DecidableEq, Repr

/-- An opaque File Metadata query handle (MDQuery). -/
structure MDQuery where
  ref : Nat
deriving DecidableEq, Repr

/-- An opaque File Metadata item handle (MDItem). -/
structure MDItem where
  ref : Nat
deriving DecidableEq, Repr

/-- Outcome of url::Url::parse as the source distinguishes it:
ParseError::RelativeUrlWithoutBase is matched explicitly, every other
parse error falls in a catch-all arm. -/
inductive ParseErr where
  | relativeUrlWithoutBase
  | otherError
deriving DecidableEq, Repr

/-- The only std::io::ErrorKind the source constructs is ErrorKind::Other. -/
inductive ErrKind where
  | other
deriving DecidableEq, Repr

/-- A std::io::Error as the source builds it: a kind plus a message string. -/
structure IoError where
  kind : ErrKind
  msg : String
deriving DecidableEq, Repr

/-- Launch Services roles mask; the source only ever passes LSRolesMask::VIEWER. -/
inductive LSRolesMask where
  | viewer
deriving DecidableEq, Repr

/-- Launch Services acceptance flags; the source only passes LSAcceptanceFlags::DEFAULT. -/
inductive LSAcceptanceFlags where
  | defaultFlags
deriving DecidableEq, Repr

/-- LSLaunchFlags are passed through opaquely; modelled as a bit pattern. -/
abbrev LSLaunchFlags := Nat

/-- OSStatus is a 32-bit signed status code; modelled as an integer. -/
abbrev OSStatus := Int

/-- The LSLaunchURLSpec the source builds: app, urls and flags are set
explicitly, the remaining fields come from Default::default() and are
never inspected by this library, so they are omitted. -/
structure LSLaunchURLSpec where
  app : Option CFURL
  urls : Option (List CFURL)
  flags : LSLaunchFlags
deriving DecidableEq, Repr

/-- The environment of framework and filesystem oracles the library calls
into. Each field stands for one external call site in src/lib.rs:
fallible calls returning an OSStatus are Except OSStatus, calls returning
a nullable reference are Option. -/
structure Env where
  /-- url::Url::parse followed by Url::into_string on success: the Ok value
  is the serialization of the parsed URL. -/
  parseUrl : String → Except ParseErr String
  /-- CFURLCreateWithString with the default allocator and no base URL;
  none models a null CFURLRef. -/
  cfurlCreateWithString : String → Option CFURL
  /-- std::path::Path::exists. -/
  pathExists : String → Bool
  /-- std::path::Path::is_dir. -/
  isDir : String → Bool
  /-- std::fs::canonicalize; none models an Err result. -/
  canonicalize : String → Option String
  /-- core_foundation CFURL::from_path(path, is_directory). -/
  fromPath : String → Bool → Option CFURL
  /-- core_foundation CFURL::to_path. -/
  toPath : CFURL → Option String
  /-- launch_services open_url: Ok carries the launched application URL. -/
  openUrl : CFURL → Except OSStatus CFURL
  /-- launch_services open_from_url_spec. -/
  openFromUrlSpec : LSLaunchURLSpec → Except OSStatus CFURL
  /-- launch_services application_urls_for_url (LSCopyApplicationURLsForURL). -/
  applicationUrlsForUrl : CFURL → LSRolesMask → Option (List CFURL)
  /-- launch_services default_application_url_for_url. -/
  defaultApplicationUrlForUrl : CFURL → LSRolesMask → Except OSStatus CFURL
  /-- launch_services application_urls_for_bundle_identifier. -/
  applicationUrlsForBundleIdentifier : String → Except OSStatus (List CFURL)
  /-- launch_services can_url_accept_url(url, app, roles, flags). -/
  canUrlAcceptUrl : CFURL → CFURL → LSRolesMask → LSAcceptanceFlags → Except OSStatus Bool
  /-- MDQuery::new(query_string, None, None); none models a null query. -/
  mdQueryNew : String → Option MDQuery
  /-- The items produced by iterating the MDQuery after execute/stop. -/
  queryItems : MDQuery → List MDItem
  /-- MDItem::get(attributes::Path) followed by to_string, as a path buffer. -/
  itemPath : MDItem → Option String

/-- Path::is_relative on a unix host: a path is absolute exactly when it
has a root, i.e. its first character is a slash. -/
def isRelativePath (p : String) : Bool :=
  match p.data with
  | [] => true
  | c :: _ => !(c == '/')

/-- fn _url(value: &str) -> Option<CFURL>: call CFURLCreateWithString and
return None exactly on a null reference. -/
def _url (env : Env) (value : String) : Option CFURL :=
  match env.cfurlCreateWithString value with
  | none => none
  | some r => some r

/-- impl Openable for Path: a relative path is canonicalized and the
result converted recursively; an absolute path goes to CFURL::from_path
with the is_directory flag from Path::is_dir. The Rust recursion has no
syntactic measure (it recurses on the canonicalized path), so it is
embedded with fuel. -/
def pathIntoOpenableFuel (env : Env) : Nat → String → Option CFURL
  | 0, _ => none
  | Nat.succ n, p =>
    if isRelativePath p then
      match env.canonicalize p with
      | some q => pathIntoOpenableFuel env n q
      | none => none
    else
      env.fromPath p (env.isDir p)

/-- Openable::into_openable for Path. std::fs::canonicalize always returns
an absolute path, so the Rust recursion makes at most one recursive call
and fuel 2 evaluates it fully (pathIntoOpenableFuel_stable below). -/
def pathIntoOpenable (env : Env) (p : String) : Option CFURL :=
  pathIntoOpenableFuel env 2 p

/-- fn url(value: &str) -> Option<CFURL>: parse as an absolute URL and
convert the serialization; on RelativeUrlWithoutBase fall back to path
conversion when the path exists, else convert the raw string; on any
other parse error convert the raw string. -/
def url (env : Env) (value : String) : Option CFURL :=
  match env.parseUrl value with
  | Except.ok u => _url env u
  | Except.error ParseErr.relativeUrlWithoutBase =>
    if env.pathExists value then
      pathIntoOpenable env value
    else
      _url env value
  | Except.error ParseErr.otherError => _url env value

/-- MultiOpenable::into_openable for vectors and slices (macro
def_multiopenable_vec): convert the elements left to right, returning
None at the first element whose conversion fails, else the collected
array. conv stands for the element type's Openable::into_openable. -/
def multiIntoOpenableWith {α : Type} (conv : α → Option CFURL) : List α → Option (List CFURL)
  | [] => some []
  | x :: xs =>
    match conv x with
    | none => none
    | some u =>
      match multiIntoOpenableWith conv xs with
      | none => none
      | some rest => some (u :: rest)

/-- MultiOpenable::into_openable for a single openable value (macro
def_multiopenable_type): a one-element array, or None if the value fails
to convert. -/
def singleIntoOpenableWith {α : Type} (conv : α → Option CFURL) (x : α) : Option (List CFURL) :=
  match conv x with
  | none => none
  | some u => some [u]

/-- pub fn open<T: Openable>(url: &T): convert, dispatch open_url, map a
failing status code c to Err(Other, "return code c") and a success to the
launched application's optional path. conv stands for T's
Openable::into_openable. -/
def openWith {α : Type} (env : Env) (conv : α → Option CFURL) (u : α) :
    Except IoError (Option String) :=
  match conv u with
  | some openable =>
    match env.openUrl openable with
    | Except.ok path => Except.ok (env.toPath path)
    | Except.error code =>
      Except.error ⟨ErrKind.other, "return code " ++ toString code⟩
  | none => Except.error ⟨ErrKind.other, "Provided url is not openable"⟩

/-- fn remap_app(app: Option<&Path>): a provided app path is converted
with CFURL::from_path(app, true); a null result is the error "Provided
app url is not valid". -/
def remapApp (env : Env) (app : Option String) : Except IoError (Option CFURL) :=
  match app with
  | some ap =>
    match env.fromPath ap true with
    | none => Except.error ⟨ErrKind.other, "Provided app url is not valid"⟩
    | some u => Except.ok (some u)
  | none => Except.ok none

/-- fn remap_multiopenable<T: MultiOpenable>(urls: Option<&T>): a provided
collection failing to convert is the error "Provided urls are not valid". -/
def remapMultiopenableWith {α : Type} (conv : α → Option (List CFURL)) (urls : Option α) :
    Except IoError (Option (List CFURL)) :=
  match urls with
  | some us =>
    match conv us with
    | none => Except.error ⟨ErrKind.other, "Provided urls are not valid"⟩
    | some a => Except.ok (some a)
  | none => Except.ok none

/-- pub fn open_complex<T: MultiOpenable>(app, urls, flags): build the
launch spec (remapping app first, then urls, each ? propagating its
error), dispatch open_from_url_spec and translate its status code. -/
def openComplexWith {α : Type} (env : Env) (conv : α → Option (List CFURL))
    (app : Option String) (urls : Option α) (flags : LSLaunchFlags) :
    Except IoError (Option String) :=
  match remapApp env app with
  | Except.error e => Except.error e
  | Except.ok appUrl =>
    match remapMultiopenableWith conv urls with
    | Except.error e => Except.error e
    | Except.ok urlArr =>
      match env.openFromUrlSpec ⟨appUrl, urlArr, flags⟩ with
      | Except.ok path => Except.ok (env.toPath path)
      | Except.error code =>
        Except.error ⟨ErrKind.other, "return code " ++ toString code⟩

/-- pub fn apps_for_scheme(scheme: &str): convert "{scheme}://" (a String,
whose Openable goes through url), query application_urls_for_url with the
VIEWER role, and keep the paths of the returned URLs. -/
def apps_for_scheme (env : Env) (scheme : String) : Option (List String) :=
  match url env (scheme ++ "://") with
  | none => none
  | some schemeUrl =>
    match env.applicationUrlsForUrl schemeUrl LSRolesMask.viewer with
    | none => none
    | some apps => some (apps.filterMap env.toPath)

/-- pub fn app_for_scheme(scheme: &str): convert "{scheme}://" and take
the path of the default application URL; any framework error becomes None. -/
def app_for_scheme (env : Env) (scheme : String) : Option String :=
  match url env (scheme ++ "://") with
  | none => none
  | some schemeUrl =>
    match env.defaultApplicationUrlForUrl schemeUrl LSRolesMask.viewer with
    | Except.ok u => env.toPath u
    | Except.error _ => none

/-- pub fn apps_for_bundle_id(bundle_id: &str): on success keep the paths
of the returned application URLs; any framework error becomes None. -/
def apps_for_bundle_id (env : Env) (bundle_id : String) : Option (List String) :=
  match env.applicationUrlsForBundleIdentifier bundle_id with
  | Except.ok apps => some (apps.filterMap env.toPath)
  | Except.error _ => none

/-- pub fn app_for_bundle_id(bundle_id: &str): first element of the plural
lookup, None when the plural lookup is None or empty. -/
def app_for_bundle_id (env : Env) (bundle_id : String) : Option String :=
  match apps_for_bundle_id env bundle_id with
  | none => none
  | some apps => if apps.isEmpty then none else apps.head?

/-- const MQ_STRING_SPECIAL_CHARS. -/
def MQ_STRING_SPECIAL_CHARS : List Char := ['?', '*', '\\', '"']

/-- fast_escape Escaper with escape character backslash over
MQ_STRING_SPECIAL_CHARS: each special character is prefixed with a
backslash. -/
def mqEscape (s : String) : String :=
  String.mk (s.data.foldr
    (fun c acc => if MQ_STRING_SPECIAL_CHARS.contains c then '\\' :: c :: acc else c :: acc)
    [])

/-- The Spotlight query string built by apps_for_name via fwrite. -/
def appsForNameQuery (app_name : String) : String :=
  "kMDItemContentTypeTree == \"com.apple.application\"c && kMDItemDisplayName == \""
    ++ mqEscape app_name ++ "\"cd"

/-- pub fn apps_for_name(app_name: &str): run the Spotlight query, keep
items carrying a Path attribute, and return None on an empty result. -/
def apps_for_name (env : Env) (app_name : String) : Option (List String) :=
  match env.mdQueryNew (appsForNameQuery app_name) with
  | none => none
  | some query =>
    let res := (env.queryItems query).filterMap env.itemPath
    if res.length == 0 then none else some res

/-- pub fn app_for_name(name: &str): first element of the plural lookup,
None when the plural lookup is None or empty. -/
def app_for_name (env : Env) (name : String) : Option String :=
  match apps_for_name env name with
  | none => none
  | some apps => if apps.isEmpty then none else apps.head?

/-- pub fn app_accept_url<T: Openable>(app, url): false if the app path
fails to convert or the url fails to convert, else the framework answer
with errors collapsed to false. -/
def app_accept_url {α : Type} (env : Env) (conv : α → Option CFURL)
    (app : String) (u : α) : Bool :=
  match env.fromPath app true with
  | some appUrl =>
    match conv u with
    | none => false
    | some cu =>
      match env.canUrlAcceptUrl cu appUrl LSRolesMask.viewer LSAcceptanceFlags.defaultFlags with
      | Except.error _ => false
      | Except.ok res => res
  | none => false

/-- pub fn app_accept_urls<T: MultiOpenable>(app, urls): false if the app
path or the collection fails to convert, else true exactly when no
converted url is rejected (framework errors counting as rejection). -/
def app_accept_urls {α : Type} (env : Env) (conv : α → Option (List CFURL))
    (app : String) (urls : α) : Bool :=
  match env.fromPath app true with
  | some appUrl =>
    match conv urls with
    | none => false
    | some us =>
      !((us.map (fun v =>
          match env.canUrlAcceptUrl v appUrl LSRolesMask.viewer LSAcceptanceFlags.defaultFlags with
          | Except.error _ => false
          | Except.ok res => res)).any (fun v => !v))
  | none => false

/-- pub fn apps_for_name_accepting_urls: filter the name lookup by
app_accept_urls, None when the lookup fails or the filtered list is empty. -/
def apps_for_name_accepting_urls {α : Type} (env : Env) (conv : α → Option (List CFURL))
    (name : String) (urls : α) : Option (List String) :=
  match apps_for_name env name with
  | none => none
  | some apps =>
    let res := apps.filter (fun v => app_accept_urls env conv v urls)
    if res.isEmpty then none else some res

/-- pub fn app_for_name_accepting_urls: first element of the filtered
lookup, None when it is None or empty. -/
def app_for_name_accepting_urls {α : Type} (env : Env) (conv : α → Option (List CFURL))
    (name : String) (urls : α) : Option String :=
  match apps_for_name_accepting_urls env conv name urls with
  | none => none
  | some apps => if apps.isEmpty then none else apps.head?

/-- pub fn apps_for_bundle_id_accepting_urls: filter the bundle lookup by
app_accept_urls, None when the lookup fails or the filtered list is empty. -/
def apps_for_bundle_id_accepting_urls {α : Type} (env : Env) (conv : α → Option (List CFURL))
    (bundle_id : String) (urls : α) : Option (List String) :=
  match apps_for_bundle_id env bundle_id with
  | none => none
  | some apps =>
    let res := apps.filter (fun v => app_accept_urls env conv v urls)
    if res.isEmpty then none else some res

/-- pub fn app_for_bundle_id_accepting_urls: first element of the filtered
lookup, None when it is None or empty. -/
def app_for_bundle_id_accepting_urls {α : Type} (env : Env) (conv : α → Option (List CFURL))
    (bundle_id : String) (urls : α) : Option String :=
  match apps_for_bundle_id_accepting_urls env conv bundle_id urls with
  | none => none
  | some apps => if apps.isEmpty then none else apps.head?

/-- Fuel 2 fully evaluates the path conversion whenever canonicalize
returns absolute paths, which std::fs::canonicalize guarantees. -/
theorem pathIntoOpenableFuel_stable (env : Env)
    (habs : ∀ p q, env.canonicalize p = some q → isRelativePath q = false) :
    ∀ n, 2 ≤ n → ∀ p, pathIntoOpenableFuel env n p = pathIntoOpenable env p := by
  intro n hn p
  obtain ⟨m, rfl⟩ : ∃ m, n = m + 2 := ⟨n - 2, by omega⟩
  show pathIntoOpenableFuel env (m + 2) p = pathIntoOpenableFuel env 2 p
  unfold pathIntoOpenableFuel
  by_cases hrel : isRelativePath p
  · simp only [hrel, if_true]
    cases hc : env.canonicalize p with
    | none => rfl
    | some q =>
      have hq := habs p q hc
      unfold pathIntoOpenableFuel
      simp [hq]
  · simp [hrel]

/-- A concrete environment used to instantiate theorems with hypotheses:
every oracle returns a fixed small value. -/
def cEnv : Env where
  parseUrl := fun s =>
    if s = "rel" then Except.error ParseErr.relativeUrlWithoutBase
    else if s = "bad" then Except.error ParseErr.otherError
    else Except.ok s
  cfurlCreateWithString := fun s => some ⟨s.length⟩
  pathExists := fun p => p == "rel"
  isDir := fun p => p == "/dir"
  canonicalize := fun p => if p = "rel" then some "/abs" else none
  fromPath := fun p _ => some ⟨p.length⟩
  toPath := fun _ => some "/App.app"
  openUrl := fun _ => Except.error 42
  openFromUrlSpec := fun _ => Except.error 7
  applicationUrlsForUrl := fun _ _ => some [⟨1⟩]
  defaultApplicationUrlForUrl := fun _ _ => Except.error 3
  applicationUrlsForBundleIdentifier := fun _ => Except.ok [⟨2⟩]
  canUrlAcceptUrl := fun _ _ _ _ => Except.ok true
  mdQueryNew := fun _ => some ⟨0⟩
  queryItems := fun _ => [⟨0⟩]
  itemPath := fun _ => some "/Name.app"

/-- A variant of cEnv in which CFURL::from_path yields a null reference. -/
def cEnvNoFromPath : Env := { cEnv with fromPath := fun _ _ => none }

/-- An environment in which the bundle lookup succeeds with an empty list
and CFURL::to_path yields None, exposing the missing emptiness checks. -/
def cexEnv1 : Env :=
  { cEnv with
    toPath := fun _ => none
    applicationUrlsForBundleIdentifier := fun _ => Except.ok [] }

/-- An environment in which the handler-resolution framework calls fail
with status code 42. -/
def cexEnv7 : Env :=
  { cEnv with
    defaultApplicationUrlForUrl := fun _ _ => Except.error 42
    applicationUrlsForBundleIdentifier := fun _ => Except.error 42 }

/-- An environment in which the handler-resolution framework calls fail
with status code -1. -/
def cexEnv7b : Env :=
  { cEnv with
    defaultApplicationUrlForUrl := fun _ _ => Except.error (-1)
    applicationUrlsForBundleIdentifier := fun _ => Except.error (-1) }

/-- Claim C1, counterexample: apps_for_bundle_id returns Some of an empty
list when the framework call succeeds with an empty list, and
apps_for_scheme returns Some of an empty list when none of the returned
application URLs yields a path; neither function has the emptiness check
the claim asserts, so an empty set of matches is not always reported as
None. -/
theorem C1_counterexample :
    apps_for_bundle_id cexEnv1 "com.example.app" = some [] ∧
    apps_for_scheme cexEnv1 "x" = some [] := by
  constructor
  · rfl
  · rfl

/-- Claim C1, amended: only apps_for_name, apps_for_name_accepting_urls
and apps_for_bundle_id_accepting_urls guarantee that Some carries a
non-empty list; apps_for_scheme and apps_for_bundle_id may return Some of
an empty list. -/
theorem C1_amended (env : Env) (α : Type) (convM : α → Option (List CFURL))
    (name bid : String) (urls : α) (l : List String) :
    (apps_for_name env name = some l → l ≠ []) ∧
    (apps_for_name_accepting_urls env convM name urls = some l → l ≠ []) ∧
    (apps_for_bundle_id_accepting_urls env convM bid urls = some l → l ≠ []) := by
  refine ⟨?_, ?_, ?_⟩
  · intro h hl
    subst hl
    unfold apps_for_name at h
    cases hq : env.mdQueryNew (appsForNameQuery name) with
    | none => rw [hq] at h; cases h
    | some q =>
      rw [hq] at h
      simp only at h
      split at h
      case isTrue hz => cases h
      case isFalse hz =>
        injection h with h2
        rw [h2] at hz
        simp at hz
  · intro h hl
    subst hl
    unfold apps_for_name_accepting_urls at h
    cases hq : apps_for_name env name with
    | none => rw [hq] at h; cases h
    | some apps =>
      rw [hq] at h
      simp only at h
      split at h
      case isTrue hz => cases h
      case isFalse hz =>
        injection h with h2
        rw [h2] at hz
        simp at hz
  · intro h hl
    subst hl
    unfold apps_for_bundle_id_accepting_urls at h
    cases hq : apps_for_bundle_id env bid with
    | none => rw [hq] at h; cases h
    | some apps =>
      rw [hq] at h
      simp only at h
      split at h
      case isTrue hz => cases h
      case isFalse hz =>
        injection h with h2
        rw [h2] at hz
        simp at hz

/-- Claim C1, witness for the amended statement: in cEnv the name lookup
returns the non-empty list containing /Name.app. -/
theorem C1_amended_witness : (["/Name.app"] : List String) ≠ [] := by
  exact (C1_amended cEnv Unit (fun _ => some []) "Safari" "b" () ["/Name.app"]).1 rfl

/-- Claim C2: once conversion to a Core Foundation URL has succeeded, a
failing Launch Services call with status code c makes open and
open_complex return a generic error (kind Other) with message
"return code c", and a successful call makes them return Ok of the
launched application's optional path; the status code is propagated
unchanged, with no retry. -/
theorem C2_status_translation (env : Env) (α β : Type)
    (conv : α → Option CFURL) (convM : β → Option (List CFURL))
    (u : α) (cu : CFURL) (app : Option String) (urls : Option β)
    (flags : LSLaunchFlags) :
    (conv u = some cu →
      (∀ c, env.openUrl cu = Except.error c →
        openWith env conv u =
          Except.error ⟨ErrKind.other, "return code " ++ toString c⟩) ∧
      (∀ r, env.openUrl cu = Except.ok r →
        openWith env conv u = Except.ok (env.toPath r))) ∧
    (∀ ca cus, remapApp env app = Except.ok ca →
      remapMultiopenableWith convM urls = Except.ok cus →
      (∀ c, env.openFromUrlSpec ⟨ca, cus, flags⟩ = Except.error c →
        openComplexWith env convM app urls flags =
          Except.error ⟨ErrKind.other, "return code " ++ toString c⟩) ∧
      (∀ r, env.openFromUrlSpec ⟨ca, cus, flags⟩ = Except.ok r →
        openComplexWith env convM app urls flags = Except.ok (env.toPath r))) := by
  constructor
  · intro h
    constructor
    · intro c hc
      simp [openWith, h, hc]
    · intro r hr
      simp [openWith, h, hr]
  · intro ca cus ha hu
    constructor
    · intro c hc
      simp [openComplexWith, ha, hu, hc]
    · intro r hr
      simp [openComplexWith, ha, hu, hr]

/-- Claim C2, witness: in cEnv, open_url fails with status 42 and open
reports the generic error "return code 42"; open_from_url_spec fails with
status 7 and open_complex reports "return code 7". -/
theorem C2_status_translation_witness :
    openWith cEnv (fun (_ : Unit) => some ⟨1⟩) () =
      Except.error ⟨ErrKind.other, "return code " ++ toString (42 : OSStatus)⟩ ∧
    openComplexWith cEnv (fun (_ : Unit) => some []) none none 0 =
      Except.error ⟨ErrKind.other, "return code " ++ toString (7 : OSStatus)⟩ := by
  constructor
  · exact ((C2_status_translation cEnv Unit Unit (fun _ => some ⟨1⟩)
      (fun _ => some []) () ⟨1⟩ none none 0).1 rfl).1 42 rfl
  · exact ((C2_status_translation cEnv Unit Unit (fun _ => some ⟨1⟩)
      (fun _ => some []) () ⟨1⟩ none none 0).2 none none rfl rfl).1 7 rfl

/-- Claim C3: a conversion failure is reported before any framework call.
If into_openable fails, open returns the error "Provided url is not
openable" whatever open_url would do; if the app path fails to convert,
open_complex returns "Provided app url is not valid" whatever
open_from_url_spec would do; if the app remap succeeds but the url
collection fails to convert, open_complex returns "Provided urls are not
valid", again independently of the launch oracle. -/
theorem C3_conversion_failure_first (env : Env) (α β : Type)
    (conv : α → Option CFURL) (convM : β → Option (List CFURL))
    (u : α) (ap : String) (app : Option String) (urls : Option β) (us : β)
    (flags : LSLaunchFlags) :
    (conv u = none → ∀ f,
      openWith { env with openUrl := f } conv u =
        Except.error ⟨ErrKind.other, "Provided url is not openable"⟩) ∧
    (env.fromPath ap true = none → ∀ g,
      openComplexWith { env with openFromUrlSpec := g } convM (some ap) urls flags =
        Except.error ⟨ErrKind.other, "Provided app url is not valid"⟩) ∧
    (∀ ca, remapApp env app = Except.ok ca → convM us = none → ∀ g,
      openComplexWith { env with openFromUrlSpec := g } convM app (some us) flags =
        Except.error ⟨ErrKind.other, "Provided urls are not valid"⟩) := by
  refine ⟨?_, ?_, ?_⟩
  · intro h f
    simp [openWith, h]
  · intro h g
    simp [openComplexWith, remapApp, h]
  · intro ca ha hm g
    have ha2 : remapApp { env with openFromUrlSpec := g } app = Except.ok ca := by
      cases app with
      | none =>
        simp [remapApp] at ha ⊢
        exact ha
      | some x =>
        simp only [remapApp] at ha ⊢
        exact ha
    simp [openComplexWith, ha2, remapMultiopenableWith, hm]

/-- Claim C3, witness: concrete instances of the three error paths, each
with a launch oracle that would succeed, showing the launch is never
consulted. -/
theorem C3_conversion_failure_first_witness :
    openWith { cEnv with openUrl := fun _ => Except.ok ⟨0⟩ }
      (fun (_ : Unit) => none) () =
      Except.error ⟨ErrKind.other, "Provided url is not openable"⟩ ∧
    openComplexWith { cEnvNoFromPath with openFromUrlSpec := fun _ => Except.ok ⟨0⟩ }
      (fun (_ : Unit) => some []) (some "/a") none 0 =
      Except.error ⟨ErrKind.other, "Provided app url is not valid"⟩ ∧
    openComplexWith { cEnv with openFromUrlSpec := fun _ => Except.ok ⟨0⟩ }
      (fun (_ : Unit) => none) none (some ()) 0 =
      Except.error ⟨ErrKind.other, "Provided urls are not valid"⟩ := by
  refine ⟨?_, ?_, ?_⟩
  · exact (C3_conversion_failure_first cEnv Unit Unit (fun _ => none)
      (fun _ => some []) () "/a" none none () 0).1 rfl _
  · exact (C3_conversion_failure_first cEnvNoFromPath Unit Unit (fun _ => none)
      (fun _ => some []) () "/a" none none () 0).2.1 rfl _
  · exact (C3_conversion_failure_first cEnv Unit Unit (fun _ => some ⟨1⟩)
      (fun _ => none) () "/a" none none () 0).2.2 none rfl rfl _

/-- Claim C4: string conversion first parses the string as an absolute
URL and converts the parsed serialization; a RelativeUrlWithoutBase
failure on an existing path falls back to path conversion; every other
case (other parse error, or non-existing path) converts the raw string
directly, and the direct conversion is None exactly when
CFURLCreateWithString returns a null reference. -/
theorem C4_string_resolution_order (env : Env) (value s : String) :
    (env.parseUrl value = Except.ok s → url env value = _url env s) ∧
    (env.parseUrl value = Except.error ParseErr.relativeUrlWithoutBase →
      env.pathExists value = true → url env value = pathIntoOpenable env value) ∧
    (env.parseUrl value = Except.error ParseErr.relativeUrlWithoutBase →
      env.pathExists value = false → url env value = _url env value) ∧
    (env.parseUrl value = Except.error ParseErr.otherError →
      url env value = _url env value) ∧
    (_url env value = none ↔ env.cfurlCreateWithString value = none) := by
  refine ⟨?_, ?_, ?_, ?_, ?_⟩
  · intro h
    simp [url, h]
  · intro h hx
    simp [url, h, hx]
  · intro h hx
    simp [url, h, hx]
  · intro h
    simp [url, h]
  · unfold _url
    cases hc : env.cfurlCreateWithString value <;> simp

/-- Claim C4, witness: in cEnv the string "rel" fails to parse with
RelativeUrlWithoutBase, names an existing path, and is converted as a
path: canonicalized to /abs and then converted by CFURL::from_path. -/
theorem C4_string_resolution_order_witness :
    url cEnv "rel" = pathIntoOpenable cEnv "rel" ∧
    url cEnv "http://a/" = _url cEnv "http://a/" := by
  constructor
  · exact (C4_string_resolution_order cEnv "rel" "rel").2.1 rfl rfl
  · exact (C4_string_resolution_order cEnv "http://a/" "http://a/").1 rfl

/-- Claim C5: path conversion canonicalizes a relative path and converts
the resulting absolute path (None when canonicalization fails), and
converts an absolute path directly with CFURL::from_path, marking it as a
directory URL exactly when Path::is_dir holds. -/
theorem C5_path_conversion (env : Env) (p q : String) :
    (isRelativePath p = true →
      (env.canonicalize p = none → pathIntoOpenable env p = none) ∧
      (env.canonicalize p = some q → isRelativePath q = false →
        pathIntoOpenable env p = env.fromPath q (env.isDir q))) ∧
    (isRelativePath p = false →
      pathIntoOpenable env p = env.fromPath p (env.isDir p)) := by
  constructor
  · intro hrel
    constructor
    · intro hc
      simp [pathIntoOpenable, pathIntoOpenableFuel, hrel, hc]
    · intro hc hq
      simp [pathIntoOpenable, pathIntoOpenableFuel, hrel, hc, hq]
  · intro hrel
    simp [pathIntoOpenable, pathIntoOpenableFuel, hrel]

/-- Claim C5, witness: in cEnv the relative path "rel" is canonicalized
to the absolute path /abs and converted with from_path; the absolute path
/x is converted directly. -/
theorem C5_path_conversion_witness :
    pathIntoOpenable cEnv "rel" = cEnv.fromPath "/abs" (cEnv.isDir "/abs") ∧
    pathIntoOpenable cEnv "/x" = cEnv.fromPath "/x" (cEnv.isDir "/x") := by
  constructor
  · exact ((C5_path_conversion cEnv "rel" "/abs").1 (by decide)).2 rfl (by decide)
  · exact (C5_path_conversion cEnv "/x" "/abs").2 (by decide)

/-- Claim C6: the accepting-urls lookups are the filtering of their base
lookup by app_accept_urls, order preserved, with None when the base
lookup is None or the filtered list is empty. -/
theorem C6_filtering_decomposition (env : Env) (α : Type)
    (convM : α → Option (List CFURL)) (name bid : String) (urls : α) :
    (apps_for_name env name = none →
      apps_for_name_accepting_urls env convM name urls = none) ∧
    (∀ l, apps_for_name env name = some l →
      apps_for_name_accepting_urls env convM name urls =
        (if (l.filter (fun v => app_accept_urls env convM v urls)).isEmpty then none
         else some (l.filter (fun v => app_accept_urls env convM v urls)))) ∧
    (apps_for_bundle_id env bid = none →
      apps_for_bundle_id_accepting_urls env convM bid urls = none) ∧
    (∀ l, apps_for_bundle_id env bid = some l →
      apps_for_bundle_id_accepting_urls env convM bid urls =
        (if (l.filter (fun v => app_accept_urls env convM v urls)).isEmpty then none
         else some (l.filter (fun v => app_accept_urls env convM v urls)))) := by
  refine ⟨?_, ?_, ?_, ?_⟩
  · intro h
    simp [apps_for_name_accepting_urls, h]
  · intro l h
    simp [apps_for_name_accepting_urls, h]
  · intro h
    simp [apps_for_bundle_id_accepting_urls, h]
  · intro l h
    simp [apps_for_bundle_id_accepting_urls, h]

/-- Claim C6, witness: in cEnv the name lookup finds /Name.app, the
framework accepts every url, and the filtered list is the whole lookup
result. -/
theorem C6_filtering_decomposition_witness :
    apps_for_name_accepting_urls cEnv (fun (_ : Unit) => some []) "Safari" () =
      some ["/Name.app"] := by
  have h := (C6_filtering_decomposition cEnv Unit (fun _ => some [])
    "Safari" "b" ()).2.1 ["/Name.app"] rfl
  simpa using h

/-- Claim C7, counterexample: when the handler-resolution framework calls
fail with a status code (42 in cexEnv7, -1 in cexEnv7b), app_for_scheme
and apps_for_bundle_id return None: their return type carries no error
value at all, the result is the same whatever the code, and no generic
error mentioning the code reaches the caller, contrary to the claim that
every operation receiving a status code maps it to a generic error. -/
theorem C7_counterexample :
    app_for_scheme cexEnv7 "x" = none ∧
    apps_for_bundle_id cexEnv7 "com.example.app" = none ∧
    app_for_scheme cexEnv7b "x" = none ∧
    apps_for_bundle_id cexEnv7b "com.example.app" = none := by
  refine ⟨rfl, rfl, rfl, rfl⟩

/-- Claim C7, amended: only the launch functions open and open_complex
translate a failing status code into a generic error; the
handler-resolution lookups app_for_scheme and apps_for_bundle_id discard
the status code and collapse any framework failure to None. -/
theorem C7_amended (env : Env) (scheme bid : String) (cu : CFURL) (c : OSStatus) :
    (url env (scheme ++ "://") = some cu →
      env.defaultApplicationUrlForUrl cu LSRolesMask.viewer = Except.error c →
      app_for_scheme env scheme = none) ∧
    (env.applicationUrlsForBundleIdentifier bid = Except.error c →
      apps_for_bundle_id env bid = none) := by
  constructor
  · intro hu hd
    simp [app_for_scheme, hu, hd]
  · intro hb
    simp [apps_for_bundle_id, hb]

/-- Claim C7, witness for the amended statement: in cexEnv7 both lookups
fail with status 42 and return None. -/
theorem C7_amended_witness :
    app_for_scheme cexEnv7 "y" = none ∧
    apps_for_bundle_id cexEnv7 "com.example.other" = none := by
  constructor
  · exact (C7_amended cexEnv7 "y" "com.example.other" ⟨4⟩ 42).1 rfl rfl
  · exact (C7_amended cexEnv7 "y" "com.example.other" ⟨4⟩ 42).2 rfl

/-- Claim C8: each singular lookup among app_for_bundle_id, app_for_name,
app_for_name_accepting_urls and app_for_bundle_id_accepting_urls returns
Some p exactly when its plural counterpart returns Some of a list with
head p, and None exactly when the plural counterpart returns None or an
empty list. -/
theorem C8_head_relation (env : Env) (α : Type)
    (convM : α → Option (List CFURL)) (name bid : String) (urls : α)
    (p : String) :
    ((app_for_bundle_id env bid = some p ↔
        ∃ t, apps_for_bundle_id env bid = some (p :: t)) ∧
      (app_for_bundle_id env bid = none ↔
        (apps_for_bundle_id env bid = none ∨ apps_for_bundle_id env bid = some []))) ∧
    ((app_for_name env name = some p ↔
        ∃ t, apps_for_name env name = some (p :: t)) ∧
      (app_for_name env name = none ↔
        (apps_for_name env name = none ∨ apps_for_name env name = some []))) ∧
    ((app_for_name_accepting_urls env convM name urls = some p ↔
        ∃ t, apps_for_name_accepting_urls env convM name urls = some (p :: t)) ∧
      (app_for_name_accepting_urls env convM name urls = none ↔
        (apps_for_name_accepting_urls env convM name urls = none ∨
          apps_for_name_accepting_urls env convM name urls = some []))) ∧
    ((app_for_bundle_id_accepting_urls env convM bid urls = some p ↔
        ∃ t, apps_for_bundle_id_accepting_urls env convM bid urls = some (p :: t)) ∧
      (app_for_bundle_id_accepting_urls env convM bid urls = none ↔
        (apps_for_bundle_id_accepting_urls env convM bid urls = none ∨
          apps_for_bundle_id_accepting_urls env convM bid urls = some []))) := by
  refine ⟨⟨?_, ?_⟩, ⟨?_, ?_⟩, ⟨?_, ?_⟩, ⟨?_, ?_⟩⟩
  · cases h : apps_for_bundle_id env bid with
    | none => simp [app_for_bundle_id, h]
    | some l =>
      cases l with
      | nil => simp [app_for_bundle_id, h]
      | cons a t => simp [app_for_bundle_id, h]
  · cases h : apps_for_bundle_id env bid with
    | none => simp [app_for_bundle_id, h]
    | some l =>
      cases l with
      | nil => simp [app_for_bundle_id, h]
      | cons a t => simp [app_for_bundle_id, h]
  · cases h : apps_for_name env name with
    | none => simp [app_for_name, h]
    | some l =>
      cases l with
      | nil => simp [app_for_name, h]
      | cons a t => simp [app_for_name, h]
  · cases h : apps_for_name env name with
    | none => simp [app_for_name, h]
    | some l =>
      cases l with
      | nil => simp [app_for_name, h]
      | cons a t => simp [app_for_name, h]
  · cases h : apps_for_name_accepting_urls env convM name urls with
    | none => simp [app_for_name_accepting_urls, h]
    | some l =>
      cases l with
      | nil => simp [app_for_name_accepting_urls, h]
      | cons a t => simp [app_for_name_accepting_urls, h]
  · cases h : apps_for_name_accepting_urls env convM name urls with
    | none => simp [app_for_name_accepting_urls, h]
    | some l =>
      cases l with
      | nil => simp [app_for_name_accepting_urls, h]
      | cons a t => simp [app_for_name_accepting_urls, h]
  · cases h : apps_for_bundle_id_accepting_urls env convM bid urls with
    | none => simp [app_for_bundle_id_accepting_urls, h]
    | some l =>
      cases l with
      | nil => simp [app_for_bundle_id_accepting_urls, h]
      | cons a t => simp [app_for_bundle_id_accepting_urls, h]
  · cases h : apps_for_bundle_id_accepting_urls env convM bid urls with
    | none => simp [app_for_bundle_id_accepting_urls, h]
    | some l =>
      cases l with
      | nil => simp [app_for_bundle_id_accepting_urls, h]
      | cons a t => simp [app_for_bundle_id_accepting_urls, h]

/-- Claim C8, witness: in cEnv the bundle lookup finds /App.app, and the
singular lookup returns it as the head of the plural result. -/
theorem C8_head_relation_witness :
    app_for_bundle_id cEnv "com.example.app" = some "/App.app" := by
  exact ((C8_head_relation cEnv Unit (fun _ => some []) "Safari"
    "com.example.app" () "/App.app").1.1).mpr ⟨[], rfl⟩

/-- Claim C9: batch conversion is all-or-nothing. It returns None exactly
when some element fails to convert; otherwise Some of the converted
elements, with the same length and order as the input (the map equation
l.map conv = r.map some states both), and the empty collection converts
to Some of an empty array. -/
theorem C9_batch_conversion (α : Type) (conv : α → Option CFURL) (l : List α) :
    (multiIntoOpenableWith conv l = none ↔ ∃ x ∈ l, conv x = none) ∧
    (∀ r, multiIntoOpenableWith conv l = some r → l.map conv = r.map some) ∧
    (l = [] → multiIntoOpenableWith conv l = some []) := by
  induction l with
  | nil =>
    refine ⟨?_, ?_, ?_⟩
    · simp [multiIntoOpenableWith]
    · intro r hr
      simp [multiIntoOpenableWith] at hr
      subst hr
      rfl
    · intro _
      rfl
  | cons x xs ih =>
    obtain ⟨ih1, ih2, _⟩ := ih
    refine ⟨?_, ?_, ?_⟩
    · constructor
      · intro h
        cases hx : conv x with
        | none => exact ⟨x, List.mem_cons_self x xs, hx⟩
        | some u =>
          cases hxs : multiIntoOpenableWith conv xs with
          | none =>
            obtain ⟨y, hy, hcy⟩ := ih1.mp hxs
            exact ⟨y, List.mem_cons_of_mem x hy, hcy⟩
          | some rest =>
            simp [multiIntoOpenableWith, hx, hxs] at h
      · rintro ⟨y, hy, hcy⟩
        rcases List.mem_cons.mp hy with rfl | hy2
        · simp [multiIntoOpenableWith, hcy]
        · have htail : multiIntoOpenableWith conv xs = none :=
            ih1.mpr ⟨y, hy2, hcy⟩
          cases hx : conv x <;> simp [multiIntoOpenableWith, hx, htail]
    · intro r hr
      cases hx : conv x with
      | none => simp [multiIntoOpenableWith, hx] at hr
      | some u =>
        cases hxs : multiIntoOpenableWith conv xs with
        | none => simp [multiIntoOpenableWith, hx, hxs] at hr
        | some rest =>
          simp [multiIntoOpenableWith, hx, hxs] at hr
          subst hr
          simp [hx, ih2 rest hxs]
    · intro h
      cases h

/-- Claim C9, witness: in cEnv the strings "a" and "b" both convert, and
the batch conversion returns their URLs in order; the element-wise map
equation is obtained from the theorem at that input. -/
theorem C9_batch_conversion_witness :
    (["a", "b"] : List String).map (url cEnv) =
      ([⟨1⟩, ⟨1⟩] : List CFURL).map some := by
  exact (C9_batch_conversion String (url cEnv) ["a", "b"]).2.1 [⟨1⟩, ⟨1⟩] rfl

/-- Claim C10: when the app path converts to an application URL, an empty
url collection is vacuously accepted by app_accept_urls; when the app
path fails to convert, app_accept_urls is false whatever the urls. -/
theorem C10_vacuous_acceptance (env : Env) (α : Type)
    (conv : α → Option CFURL) (ap : String) (l : List α) :
    ((∃ u, env.fromPath ap true = some u) →
      app_accept_urls env (multiIntoOpenableWith conv) ap ([] : List α) = true) ∧
    (env.fromPath ap true = none →
      app_accept_urls env (multiIntoOpenableWith conv) ap l = false) := by
  constructor
  · rintro ⟨u, hu⟩
    simp [app_accept_urls, hu, multiIntoOpenableWith]
  · intro h
    simp [app_accept_urls, h]

/-- Claim C10, witness: in cEnv the app path /App.app converts, so the
empty url list is accepted; in cEnvNoFromPath the conversion fails, so a
non-empty url list is rejected. -/
theorem C10_vacuous_acceptance_witness :
    app_accept_urls cEnv (multiIntoOpenableWith (url cEnv)) "/App.app"
      ([] : List String) = true ∧
    app_accept_urls cEnvNoFromPath (multiIntoOpenableWith (url cEnvNoFromPath))
      "/App.app" (["a"] : List String) = false := by
  constructor
  · exact (C10_vacuous_acceptance cEnv String (url cEnv) "/App.app" []).1 ⟨⟨8⟩, rfl⟩
  · exact (C10_vacuous_acceptance cEnvNoFromPath String (url cEnvNoFromPath)
      "/App.app" ["a"]).2 rfl
